import Mathlib

/-!
Verification development for the message-decoding core of an iMessage
database exporter.  Rust strings are modelled as lists of characters
(`Str`); Rust `Option` as `Option`; a Rust `panic!`/`unwrap` failure as
the `PanicOr.panic` value.  All definitions are translated from
`src/imessage-database/src/tables/messages.rs` and
`src/imessage-database/src/util/dates.rs`.
-/

namespace IMessage

/-- Rust `&str`/`String` modelled as a list of characters. -/
abbrev Str := List Char

/-- Source constant `ATTACHMENT_CHAR`, the object-replacement sentinel. -/
def ATTACHMENT_CHAR : Char := '￼'

/-- Source constant `APP_CHAR`, the replacement-character sentinel. -/
def APP_CHAR : Char := '�'

/-- Source constant `REPLACEMENT_CHARS.contains`, the sentinel test. -/
def isReplacementChar (c : Char) : Bool :=
  c = ATTACHMENT_CHAR || c = APP_CHAR

/-- Unicode white-space property, as used by Rust `str::trim`
(`char::is_whitespace`). -/
def isRustWhitespace (c : Char) : Bool :=
  c = ' ' || c = '\t' || c = '\n' || c = '\u000B' || c = '\u000C' || c = '\r' ||
  c = '\u0085' || c = ' ' || c = ' ' ||
  (' ' ≤ c && c ≤ ' ') ||
  c = ' ' || c = ' ' || c = ' ' || c = ' ' || c = '　'

/-- Rust `str::trim`: drop leading and trailing whitespace. -/
def trimStr (s : Str) : Str :=
  ((s.dropWhile isRustWhitespace).reverse.dropWhile isRustWhitespace).reverse

/-- Rust `str::starts_with` on the character-list model. -/
def startsWithStr : Str → Str → Bool
  | _, [] => true
  | [], _ :: _ => false
  | c :: cs, p :: ps => c = p && startsWithStr cs ps

/-- Rust `str::split(sep)`: the list of pieces between occurrences of
`sep`; always non-empty, and the empty string yields one empty piece. -/
def splitOnChar (sep : Char) : Str → List Str
  | [] => [[]]
  | c :: cs =>
    match splitOnChar sep cs with
    | [] => [[]]
    | piece :: pieces =>
      if c = sep then [] :: piece :: pieces else (c :: piece) :: pieces

/-- Rust `str::parse::<usize>`: an optional leading plus sign, then one
or more ASCII digits, and the value must fit in 64 bits. -/
def parseUsize (s : Str) : Option Nat :=
  let t := match s with
    | '+' :: rest => rest
    | other => other
  if t = [] then none
  else if t.all (fun c => c.isDigit) then
    let v := t.foldl (fun acc c => acc * 10 + (c.toNat - 48)) 0
    if v < 2 ^ 64 then some v else none
  else none

/-- Rust `str::replace("p:", "")`: remove every (left-to-right,
non-overlapping) occurrence of the two-character pattern `p:`. -/
def removePColonAll : Str → Str
  | [] => []
  | [c] => [c]
  | c₁ :: c₂ :: rest =>
    if c₁ = 'p' ∧ c₂ = ':' then removePColonAll rest
    else c₁ :: removePColonAll (c₂ :: rest)

/-- Fuel-bounded helper for decimal rendering; the fuel only serves
structural termination and is always sufficient when it exceeds the
number being rendered. -/
def natDigitsAux : Nat → Nat → Str
  | 0, _ => []
  | fuel + 1, n =>
    if n < 10 then [Nat.digitChar n]
    else natDigitsAux fuel (n / 10) ++ [Nat.digitChar (n % 10)]

/-- Decimal rendering of a natural number, modelling Rust's
`format!` of an integer. -/
def natDigits (n : Nat) : Str := natDigitsAux (n + 1) n

/-- The result of a Rust computation that can `panic!` (an `unwrap` of
`None`): either a panic or an ordinary value. -/
inductive PanicOr (α : Type) where
  | panic : PanicOr α
  | ok : α → PanicOr α
deriving DecidableEq

/-- Map a function over the non-panicking outcome. -/
def PanicOr.map (f : α → β) : PanicOr α → PanicOr β
  | .panic => .panic
  | .ok a => .ok (f a)

/-- Source enum `BubbleType`: one typed piece of a message body. -/
inductive BubbleType where
  | Text : Str → BubbleType
  | Attachment : BubbleType
  | App : BubbleType
deriving DecidableEq

/-- Source enum `Reaction` (module `variants`): the reaction kinds. -/
inductive ReactionKind where
  | Loved | Liked | Disliked | Laughed | Emphasized | Questioned
deriving DecidableEq

/-- Source enum `CustomBalloon`: the rich-app balloon kinds. -/
inductive CustomBalloon where
  | URL
  | Music
  | Handwriting
  | ApplePay
  | Fitness
  | Slideshow
  | Application : Str → CustomBalloon
deriving DecidableEq

/-- Source enum `Variant`: the semantic classification of a message. -/
inductive Variant where
  | Normal : Variant
  | App : CustomBalloon → Variant
  | Sticker : Nat → Variant
  | Reaction : Nat → Bool → ReactionKind → Variant
  | Unknown : Int → Variant
deriving DecidableEq

/-- Source struct `Message`: one row of the `message` table. -/
structure Message where
  rowid : Int
  guid : Str
  text : Option Str
  service : Option Str
  handle_id : Int
  subject : Option Str
  date : Int
  date_read : Int
  date_delivered : Int
  is_from_me : Bool
  is_read : Bool
  group_title : Option Str
  associated_message_guid : Option Str
  associated_message_type : Int
  balloon_bundle_id : Option Str
  expressive_send_style_id : Option Str
  thread_originator_guid : Option Str
  thread_originator_part : Option Str
  chat_id : Option Int
  num_attachments : Int
  num_replies : Int
deriving DecidableEq

/-- The all-default message used by the source's test fixture `blank()`. -/
def blank : Message where
  rowid := 0
  guid := []
  text := none
  service := some ("iMessage".toList)
  handle_id := 0
  subject := none
  date := 0
  date_read := 0
  date_delivered := 0
  is_from_me := false
  is_read := false
  group_title := none
  associated_message_guid := none
  associated_message_type := 0
  balloon_bundle_id := none
  expressive_send_style_id := none
  thread_originator_guid := none
  thread_originator_part := none
  chat_id := none
  num_attachments := 0
  num_replies := 0

/-- The body-segmentation scan loop of `Message::body`.  The source walks
`char_indices` keeping a byte-cursor pair `(start, end)`; `start < end`
holds exactly when the pending non-sentinel run has at least two
characters, `start <= end && start < len` at the end of the scan holds
exactly when a non-empty run remains, and the sliced substrings are
exactly the pending runs.  This definition carries the pending run
explicitly and reproduces those guards. -/
def segmentChars (run : Str) : Str → List BubbleType
  | [] => if run = [] then [] else [BubbleType.Text (trimStr run)]
  | c :: cs =>
    if isReplacementChar c then
      (if 2 ≤ run.length then [BubbleType.Text (trimStr run)] else [])
        ++ [if c = ATTACHMENT_CHAR then BubbleType.Attachment else BubbleType.App]
        ++ segmentChars [] cs
    else
      segmentChars (run ++ [c]) cs

/-- Source `Message::body`: an extension-bundle identifier short-circuits
to a single `App` segment; otherwise the text (when present) is scanned
around the two sentinel codepoints. -/
def Message.body (m : Message) : List BubbleType :=
  if m.balloon_bundle_id.isSome then [BubbleType.App]
  else
    match m.text with
    | some text => segmentChars [] text
    | none => []

/-- Source constant `TIMESTAMP_FACTOR`. -/
def TIMESTAMP_FACTOR : Int := 1000000000

/-- Source `Message::get_local_time`.  The raw stamp is divided by the
nanosecond factor (Rust division truncates toward zero) and shifted by
the epoch offset; the remaining chrono pipeline
(`NaiveDateTime::from_timestamp_opt`, conversion to the local zone and
field-wise reconstruction via `.single()`) is timezone-dependent and is
abstracted as the function `loc` from a UTC unix second to an optional
local calendar timestamp. -/
def get_local_time (loc : Int → Option Int) (date_stamp offset : Int) : Option Int :=
  loc (Int.tdiv date_stamp TIMESTAMP_FACTOR + offset)

/-- Source `Message::date` (named apart from the raw field). -/
def Message.date_local (loc : Int → Option Int) (m : Message) (offset : Int) : Option Int :=
  get_local_time loc m.date offset

/-- Source `Message::date_delivered` (named apart from the raw field). -/
def Message.date_delivered_local (loc : Int → Option Int) (m : Message) (offset : Int) :
    Option Int :=
  get_local_time loc m.date_delivered offset

/-- Source `Message::date_read` (named apart from the raw field). -/
def Message.date_read_local (loc : Int → Option Int) (m : Message) (offset : Int) :
    Option Int :=
  get_local_time loc m.date_read offset

/-- Source constant `SEPARATOR` from `util/dates.rs`. -/
def SEPARATOR : Str := [',', ' ']

/-- One accumulation step of `readable_diff`: when the component is
non-zero, append the separator (when the accumulator is non-empty) and
then the rendered count with its singular or plural unit word.  The
source's days block omits the emptiness test, but its accumulator is
empty there, so the step is identical for all four components. -/
def pushUnit (out_s : Str) (n : Nat) (sing plur : Str) : Str :=
  if n ≠ 0 then
    (if out_s ≠ [] then out_s ++ SEPARATOR else out_s)
      ++ natDigits n ++ ' ' :: (if n = 1 then sing else plur)
  else out_s

/-- The accumulation body of `readable_diff` over a non-negative second
count: days, hours, minutes, seconds, each the remainder after the
larger unit, pushed in that order. -/
def formatDiffNat (s : Nat) : Str :=
  pushUnit
    (pushUnit
      (pushUnit
        (pushUnit [] (s / 86400) "day".toList "days".toList)
        (s % 86400 / 3600) "hour".toList "hours".toList)
      (s % 86400 % 3600 / 60) "minute".toList "minutes".toList)
    (s % 86400 % 3600 % 60) "second".toList "seconds".toList

/-- Source `readable_diff` from `util/dates.rs`.  Calendar timestamps are
whole seconds (`Int`); a negative difference returns `none` and otherwise
the imperative accumulation renders the four components. -/
def readable_diff (start fin : Int) : Option Str :=
  if fin - start < 0 then none
  else some (formatDiffNat (fin - start).toNat)

/-- Source `Message::time_until_read`: the received branch uses the read
timestamp, the sent branch the delivered timestamp; a `?` failure of
either calendar conversion yields `none`. -/
def Message.time_until_read (loc : Int → Option Int) (m : Message) (offset : Int) :
    Option Str :=
  if m.is_from_me = false ∧ m.date_read ≠ 0 ∧ m.date ≠ 0 then
    match m.date_local loc offset, m.date_read_local loc offset with
    | some a, some b => readable_diff a b
    | _, _ => none
  else if m.is_from_me = true ∧ m.date_delivered ≠ 0 ∧ m.date ≠ 0 then
    match m.date_local loc offset, m.date_delivered_local loc offset with
    | some a, some b => readable_diff a b
    | _, _ => none
  else none

/-- Source `Message::get_reply_index`: the first `split(':')` piece is
parsed with a bare `unwrap`, so an unparseable piece panics.  The
`None => 0` arm of the source match is kept although `split().next()`
never returns `None`. -/
def Message.get_reply_index (m : Message) : PanicOr Nat :=
  match m.thread_originator_part with
  | some parts =>
    match (splitOnChar ':' parts).head? with
    | some part =>
      match parseUsize part with
      | some v => PanicOr.ok v
      | none => PanicOr.panic
    | none => PanicOr.ok 0
  | none => PanicOr.ok 0

/-- Source `Message::clean_associated_guid`.  For a `p:` identifier the
pieces of `split('/')` are taken: the first always exists; the second is
`unwrap`ped, panicking when the identifier holds no `/`.  The index is
the first piece with every occurrence of `p:` removed, parsed with
`unwrap_or(0)`. -/
def Message.clean_associated_guid (m : Message) : PanicOr (Option (Nat × Str)) :=
  match m.associated_message_guid with
  | none => PanicOr.ok none
  | some guid =>
    if startsWithStr guid ['p', ':'] then
      let split := splitOnChar '/' guid
      let index_val := (parseUsize (removePColonAll (split.headD []))).getD 0
      match split.get? 1 with
      | some message_id => PanicOr.ok (some (index_val, message_id))
      | none => PanicOr.panic
    else if startsWithStr guid ['b', 'p', ':'] then
      PanicOr.ok (some (0, guid.drop 3))
    else
      PanicOr.ok (some (0, guid))

/-- Source `Message::reaction_index`. -/
def Message.reaction_index (m : Message) : PanicOr Nat :=
  match m.clean_associated_guid with
  | PanicOr.panic => PanicOr.panic
  | PanicOr.ok (some (x, _)) => PanicOr.ok x
  | PanicOr.ok none => PanicOr.ok 0

/-- Source `Message::parse_balloon_bundle_id`: with exactly one
colon-delimited part that part is returned, otherwise the third part
(which may be absent). -/
def Message.parse_balloon_bundle_id (m : Message) : Option Str :=
  match m.balloon_bundle_id with
  | none => none
  | some bundle_id =>
    match splitOnChar ':' bundle_id with
    | [only] => some only
    | parts => parts.get? 2

/-- The URL-preview provider identifier from `Message::variant`. -/
def urlProviderId : Str := "com.apple.messages.URLBalloonProvider".toList

/-- The handwriting provider identifier from `Message::variant`. -/
def handwritingId : Str := "com.apple.Handwriting.HandwritingProvider".toList

/-- The peer-payment extension identifier from `Message::variant`. -/
def applePayId : Str := "com.apple.PassbookUIService.PeerPaymentMessagesExtension".toList

/-- The fitness extension identifier from `Message::variant`. -/
def fitnessId : Str := "com.apple.ActivityMessagesApp.MessagesExtension".toList

/-- The photo-slideshow identifier from `Message::variant`. -/
def slideshowId : Str := "com.apple.mobileslideshow.PhotosMessagesApp".toList

/-- The music-service URL start checked in `Message::variant`. -/
def musicUrlStart : Str := "https://music.apple".toList

/-- Source `Message::variant`: the numeric association-type taxonomy,
with balloon resolution for the standard codes.  The Rust `match` on
integer literals is rendered as the equivalent chain of equality
tests. -/
def Message.variant (m : Message) : PanicOr Variant :=
  let t := m.associated_message_type
  if t = 0 ∨ t = 2 ∨ t = 3 then
    PanicOr.ok
      (match m.parse_balloon_bundle_id with
       | some bundle_id =>
         if bundle_id = urlProviderId then
           match m.text with
           | some text =>
             if startsWithStr text musicUrlStart then Variant.App CustomBalloon.Music
             else Variant.App CustomBalloon.URL
           | none => Variant.App CustomBalloon.URL
         else if bundle_id = handwritingId then Variant.App CustomBalloon.Handwriting
         else if bundle_id = applePayId then Variant.App CustomBalloon.ApplePay
         else if bundle_id = fitnessId then Variant.App CustomBalloon.Fitness
         else if bundle_id = slideshowId then Variant.App CustomBalloon.Slideshow
         else Variant.App (CustomBalloon.Application bundle_id)
       | none => Variant.Normal)
  else if t = 1000 then m.reaction_index.map Variant.Sticker
  else if t = 2000 then m.reaction_index.map (fun i => Variant.Reaction i true ReactionKind.Loved)
  else if t = 2001 then m.reaction_index.map (fun i => Variant.Reaction i true ReactionKind.Liked)
  else if t = 2002 then m.reaction_index.map (fun i => Variant.Reaction i true ReactionKind.Disliked)
  else if t = 2003 then m.reaction_index.map (fun i => Variant.Reaction i true ReactionKind.Laughed)
  else if t = 2004 then m.reaction_index.map (fun i => Variant.Reaction i true ReactionKind.Emphasized)
  else if t = 2005 then m.reaction_index.map (fun i => Variant.Reaction i true ReactionKind.Questioned)
  else if t = 3000 then m.reaction_index.map (fun i => Variant.Reaction i false ReactionKind.Loved)
  else if t = 3001 then m.reaction_index.map (fun i => Variant.Reaction i false ReactionKind.Liked)
  else if t = 3002 then m.reaction_index.map (fun i => Variant.Reaction i false ReactionKind.Disliked)
  else if t = 3003 then m.reaction_index.map (fun i => Variant.Reaction i false ReactionKind.Laughed)
  else if t = 3004 then m.reaction_index.map (fun i => Variant.Reaction i false ReactionKind.Emphasized)
  else if t = 3005 then m.reaction_index.map (fun i => Variant.Reaction i false ReactionKind.Questioned)
  else PanicOr.ok (Variant.Unknown t)

/-- Join a list of strings with a separator between consecutive
elements. -/
def joinSep (sep : Str) : List Str → Str
  | [] => []
  | [x] => x
  | x :: y :: xs => x ++ sep ++ joinSep sep (y :: xs)

/-- One duration component rendered as a count and a unit word, singular
when the count is one. -/
def unitComponent (n : Nat) (sing plur : Str) : Str :=
  natDigits n ++ ' ' :: (if n = 1 then sing else plur)

/-- The day/hour/minute/second decomposition of a second count, each the
remainder after the larger unit, in descending unit order. -/
def durationComponents (s : Nat) : List (Nat × Str × Str) :=
  [(s / 86400, "day".toList, "days".toList),
   (s % 86400 / 3600, "hour".toList, "hours".toList),
   (s % 86400 % 3600 / 60, "minute".toList, "minutes".toList),
   (s % 86400 % 3600 % 60, "second".toList, "seconds".toList)]

/-- The specification's wording of the duration formatter: keep only the
non-zero components, render each with singular wording at one, and join
them with the comma-space separator in descending unit order. -/
def durationSpec (s : Nat) : Str :=
  joinSep SEPARATOR
    (((durationComponents s).filter (fun p => p.1 ≠ 0)).map
      (fun p => unitComponent p.1 p.2.1 p.2.2))

/-!  Helper lemmas about the string primitives. -/

theorem splitOnChar_ne_nil (sep : Char) (s : Str) : splitOnChar sep s ≠ [] := by
  cases s with
  | nil => simp [splitOnChar]
  | cons c cs =>
    unfold splitOnChar
    cases splitOnChar sep cs with
    | nil => simp
    | cons p ps =>
      dsimp only
      split <;> simp

theorem splitOnChar_head (sep : Char) (s : Str) :
    (splitOnChar sep s).head? = some (s.takeWhile (fun c => c != sep)) := by
  induction s with
  | nil => simp [splitOnChar]
  | cons c cs ih =>
    unfold splitOnChar
    cases h : splitOnChar sep cs with
    | nil => exact absurd h (splitOnChar_ne_nil sep cs)
    | cons p ps =>
      rw [h] at ih
      simp only [List.head?_cons, Option.some.injEq] at ih
      by_cases hc : c = sep
      · simp [hc, List.takeWhile_cons]
      · simp [hc, List.takeWhile_cons, ih]

theorem splitOnChar_no_sep (sep : Char) (s : Str) (h : ∀ c ∈ s, c ≠ sep) :
    splitOnChar sep s = [s] := by
  induction s with
  | nil => simp [splitOnChar]
  | cons c cs ih =>
    have hcs : ∀ x ∈ cs, x ≠ sep := fun x hx => h x (List.mem_cons_of_mem _ hx)
    have hc : c ≠ sep := h c (List.mem_cons_self _ _)
    unfold splitOnChar
    rw [ih hcs]
    simp [hc]

theorem splitOnChar_append (sep : Char) (a b : Str) (h : ∀ c ∈ a, c ≠ sep) :
    splitOnChar sep (a ++ sep :: b) = a :: splitOnChar sep b := by
  induction a with
  | nil =>
    simp only [List.nil_append]
    cases hb : splitOnChar sep b with
    | nil => exact absurd hb (splitOnChar_ne_nil sep b)
    | cons p ps => rw [splitOnChar, hb]; simp
  | cons c cs ih =>
    have hc : c ≠ sep := h c (List.mem_cons_self _ _)
    have hcs : ∀ x ∈ cs, x ≠ sep := fun x hx => h x (List.mem_cons_of_mem _ hx)
    simp only [List.cons_append]
    rw [splitOnChar, ih hcs]
    simp [hc]

theorem removePColonAll_of_no_colon (s : Str) (h : ':' ∉ s) : removePColonAll s = s := by
  induction s with
  | nil => rfl
  | cons c cs ih =>
    have hcs : ':' ∉ cs := fun hx => h (List.mem_cons_of_mem _ hx)
    cases cs with
    | nil => rfl
    | cons d ds =>
      have hd : d ≠ ':' := by
        intro hdd
        exact hcs (hdd ▸ List.mem_cons_self _ _)
      unfold removePColonAll
      rw [if_neg (by simp [hd])]
      exact congrArg (c :: ·) (ih hcs)

theorem natDigits_ne_nil (n : Nat) : natDigits n ≠ [] := by
  unfold natDigits natDigitsAux
  split <;> simp

/-!  Helper lemmas about the body-segmentation loop. -/

theorem segmentChars_no_sentinel (t : Str) : ∀ run : Str,
    (∀ c ∈ t, isReplacementChar c = false) → (run ≠ [] ∨ t ≠ []) →
    segmentChars run t = [BubbleType.Text (trimStr (run ++ t))] := by
  induction t with
  | nil =>
    intro run _ hne
    rcases hne with h | h
    · simp [segmentChars, h]
    · exact absurd rfl h
  | cons c cs ih =>
    intro run hs _
    have hc : isReplacementChar c = false := hs c (List.mem_cons_self _ _)
    have hcs : ∀ x ∈ cs, isReplacementChar x = false :=
      fun x hx => hs x (List.mem_cons_of_mem _ hx)
    rw [segmentChars, if_neg (by simp [hc])]
    rw [ih (run ++ [c]) hcs (Or.inl (by simp))]
    simp

theorem segmentChars_ends_sentinel (t : Str) (c : Char) (hc : isReplacementChar c = true) :
    ∀ run : Str, ∃ front : List BubbleType,
      segmentChars run (t ++ [c]) =
        front ++ [if c = ATTACHMENT_CHAR then BubbleType.Attachment else BubbleType.App] := by
  induction t with
  | nil =>
    intro run
    refine ⟨if 2 ≤ run.length then [BubbleType.Text (trimStr run)] else [], ?_⟩
    rw [List.nil_append, segmentChars, if_pos hc]
    simp [segmentChars]
  | cons d ds ih =>
    intro run
    by_cases hd : isReplacementChar d = true
    · obtain ⟨front, hf⟩ := ih []
      refine ⟨(if 2 ≤ run.length then [BubbleType.Text (trimStr run)] else [])
        ++ (if d = ATTACHMENT_CHAR then BubbleType.Attachment else BubbleType.App) :: front, ?_⟩
      rw [List.cons_append, segmentChars, if_pos hd, hf]
      simp
    · obtain ⟨front, hf⟩ := ih (run ++ [d])
      refine ⟨front, ?_⟩
      rw [List.cons_append, segmentChars, if_neg hd, hf]

/-!  Claim C1: reply-index decoding. -/

/-- Claim C1, counterexample.  The claim states that an unparseable
substring before the first colon makes `get_reply_index` return 0 rather
than fail; on the specifier string `x:1` the source instead panics (the
parse result is `unwrap`ped). -/
theorem claim_C1_counterexample :
    Message.get_reply_index
        { blank with thread_originator_part := some ('x' :: ':' :: '1' :: []) }
      = PanicOr.panic ∧
    Message.get_reply_index
        { blank with thread_originator_part := some ('x' :: ':' :: '1' :: []) }
      ≠ PanicOr.ok 0 := by
  constructor
  · decide
  · decide

/-- Claim C1, amended.  `get_reply_index` takes the substring before the
first colon of the reply-target sub-part specifier and parses it as an
integer; an absent specifier yields 0, a parseable substring yields its
value, and an unparseable substring panics instead of defaulting to 0. -/
theorem claim_C1_amended (m : Message) (s : Str) :
    (m.thread_originator_part = none → m.get_reply_index = PanicOr.ok 0) ∧
    (m.thread_originator_part = some s →
      m.get_reply_index =
        match parseUsize (s.takeWhile (fun c => c != ':')) with
        | some v => PanicOr.ok v
        | none => PanicOr.panic) := by
  constructor
  · intro h
    simp [Message.get_reply_index, h]
  · intro h
    simp only [Message.get_reply_index, h, splitOnChar_head]

/-- Claim C1, witness for the amended statement at the specifier `3:1`. -/
theorem claim_C1_witness :
    Message.get_reply_index
        { blank with thread_originator_part := some ('3' :: ':' :: '1' :: []) }
      = PanicOr.ok 3 := by
  have h :=
    (claim_C1_amended
      { blank with thread_originator_part := some ('3' :: ':' :: '1' :: []) }
      ('3' :: ':' :: '1' :: [])).2 rfl
  rw [h]
  decide

/-!  Claim C2: no empty text segments. -/

/-- Claim C2, counterexample.  On the text made of two spaces followed by
the attachment sentinel, `body` emits a `Text` segment whose (trimmed)
content is empty, contradicting the claim that such segments are never
emitted. -/
theorem claim_C2_counterexample :
    Message.body
        { blank with text := some (' ' :: ' ' :: ATTACHMENT_CHAR :: []) }
      = [BubbleType.Text [], BubbleType.Attachment] ∧
    BubbleType.Text [] ∈
      Message.body { blank with text := some (' ' :: ' ' :: ATTACHMENT_CHAR :: []) } := by
  constructor
  · decide
  · decide

/-- Claim C2, amended.  `body` can emit a `Text` segment with empty
trimmed content (a whitespace-only run of at least two characters before
a sentinel, or a whitespace-only run after the final sentinel); however a
text beginning with a sentinel codepoint never yields a leading `Text`
segment (the output begins with the corresponding placeholder) and a
text ending with a sentinel never yields a trailing `Text` segment (the
output ends with the corresponding placeholder). -/
theorem claim_C2_amended (m : Message) (t : Str) (c : Char)
    (hb : m.balloon_bundle_id = none) (hc : isReplacementChar c = true) :
    (m.text = some (c :: t) →
      ∃ rest, m.body =
        (if c = ATTACHMENT_CHAR then BubbleType.Attachment else BubbleType.App) :: rest) ∧
    (m.text = some (t ++ [c]) →
      ∃ front, m.body =
        front ++ [if c = ATTACHMENT_CHAR then BubbleType.Attachment else BubbleType.App]) := by
  constructor
  · intro ht
    refine ⟨segmentChars [] t, ?_⟩
    simp only [Message.body, hb, Option.isSome_none, Bool.false_eq_true, if_false, ht]
    rw [segmentChars, if_pos hc]
    simp
  · intro ht
    simp only [Message.body, hb, Option.isSome_none, Bool.false_eq_true, if_false, ht]
    exact segmentChars_ends_sentinel t c hc []

/-- Claim C2, witness for the amended statement on the text consisting of
the single app sentinel. -/
theorem claim_C2_witness :
    (∃ rest, Message.body { blank with text := some (APP_CHAR :: []) }
        = BubbleType.App :: rest) ∧
    (∃ front, Message.body { blank with text := some (APP_CHAR :: []) }
        = front ++ [BubbleType.App]) := by
  have h := claim_C2_amended
    { blank with text := some (APP_CHAR :: []) } [] APP_CHAR rfl (by decide)
  constructor
  · obtain ⟨rest, hr⟩ := h.1 rfl
    exact ⟨rest, by simpa using hr⟩
  · obtain ⟨front, hf⟩ := h.2 rfl
    exact ⟨front, by simpa using hf⟩

/-!  Claim C3: sentinel-free texts. -/

/-- Claim C3, counterexample.  For the empty text (no extension-bundle
identifier, no sentinels), `body` returns the empty sequence, not the
one-element sequence containing an empty `Text` segment as the claim
states. -/
theorem claim_C3_counterexample :
    Message.body { blank with text := some [] } = [] ∧
    Message.body { blank with text := some [] }
      ≠ [BubbleType.Text (trimStr [])] := by
  constructor
  · decide
  · decide

/-- Claim C3, amended.  With no extension-bundle identifier and a text
containing neither sentinel codepoint, `body` returns exactly
the one-element sequence holding the trimmed text when the text is
non-empty — including whitespace-only texts, which yield an empty `Text`
segment — and returns the empty sequence for the empty text. -/
theorem claim_C3_amended (m : Message) (t : Str)
    (hb : m.balloon_bundle_id = none) (ht : m.text = some t)
    (hs : ∀ c ∈ t, isReplacementChar c = false) :
    (t ≠ [] → m.body = [BubbleType.Text (trimStr t)]) ∧
    (t = [] → m.body = []) := by
  constructor
  · intro hne
    simp only [Message.body, hb, Option.isSome_none, Bool.false_eq_true, if_false, ht]
    rw [segmentChars_no_sentinel t [] hs (Or.inr hne)]
    simp
  · intro hnil
    subst hnil
    simp [Message.body, hb, ht, segmentChars]

/-- Claim C3, witness for the amended statement on the plain text
`Hello world`. -/
theorem claim_C3_witness :
    Message.body { blank with text := some ("Hello world".toList) }
      = [BubbleType.Text ("Hello world".toList)] := by
  have h := (claim_C3_amended
    { blank with text := some ("Hello world".toList) }
    ("Hello world".toList) rfl rfl (by decide)).1 (by decide)
  rw [h]
  decide

/-!  Claim C8: branch conditions of the time-until-read computation. -/

/-- Claim C8.  `time_until_read` returns the duration from the authored
to the read timestamp exactly when the message is not from self and both
raw stamps are non-zero; the duration from the authored to the delivered
timestamp exactly when it is from self and both raw stamps are non-zero;
and `none` in every other case. -/
theorem claim_C8_theorem (loc : Int → Option Int) (m : Message) (offset : Int) :
    (m.is_from_me = false → m.date_read ≠ 0 → m.date ≠ 0 →
      m.time_until_read loc offset =
        match get_local_time loc m.date offset, get_local_time loc m.date_read offset with
        | some a, some b => readable_diff a b
        | _, _ => none) ∧
    (m.is_from_me = true → m.date_delivered ≠ 0 → m.date ≠ 0 →
      m.time_until_read loc offset =
        match get_local_time loc m.date offset, get_local_time loc m.date_delivered offset with
        | some a, some b => readable_diff a b
        | _, _ => none) ∧
    (¬ (m.is_from_me = false ∧ m.date_read ≠ 0 ∧ m.date ≠ 0) →
      ¬ (m.is_from_me = true ∧ m.date_delivered ≠ 0 ∧ m.date ≠ 0) →
      m.time_until_read loc offset = none) := by
  refine ⟨fun h1 h2 h3 => ?_, fun h1 h2 h3 => ?_, fun h1 h2 => ?_⟩
  · rw [Message.time_until_read, if_pos ⟨h1, h2, h3⟩]
    rfl
  · rw [Message.time_until_read, if_neg (by simp [h1]), if_pos ⟨h1, h2, h3⟩]
    rfl
  · rw [Message.time_until_read, if_neg h1, if_neg h2]

/-- Claim C8, witness: a received message authored at one second and read
at two seconds (raw nanosecond stamps), under the identity local-time
model. -/
theorem claim_C8_witness :
    Message.time_until_read (fun u => some u)
        { blank with date := 1000000000, date_read := 2000000000 } 0
      = some ('1' :: ' ' :: "second".toList) := by
  have h := (claim_C8_theorem (fun u => some u)
    { blank with date := 1000000000, date_read := 2000000000 } 0).1 rfl
    (by decide) (by decide)
  rw [h]
  decide

/-!  Claim C9: the `p:`-without-slash panic. -/

/-- Claim C9.  When the association identifier starts with `p:` but holds
no slash, `clean_associated_guid` panics (the second split piece is
`unwrap`ped), so decoding is not total over `p:`-prefixed strings. -/
theorem claim_C9_theorem (m : Message) (g : Str)
    (hg : m.associated_message_guid = some g)
    (hp : startsWithStr g ('p' :: ':' :: []) = true)
    (hs : '/' ∉ g) :
    m.clean_associated_guid = PanicOr.panic := by
  simp only [Message.clean_associated_guid, hg, hp, if_true]
  rw [splitOnChar_no_sep '/' g (fun c hc he => hs (he ▸ hc))]
  rfl

/-- Claim C9, witness at the identifier `p:123`. -/
theorem claim_C9_witness :
    Message.clean_associated_guid
        { blank with associated_message_guid := some ("p:123".toList) }
      = PanicOr.panic := by
  exact claim_C9_theorem
    { blank with associated_message_guid := some ("p:123".toList) }
    ("p:123".toList) rfl (by decide) (by decide)

/-!  Claim C10: the calendar accessors ignore the zero sentinel. -/

/-- Claim C10.  A raw timestamp of 0 is not special-cased by the calendar
accessors: each converts the store epoch itself, i.e. the local
conversion of `0 / factor + offset = offset` (the 2001-01-01 epoch when
`offset` is the epoch offset), rather than returning `none`; under a
total local-time model the result is `some offset`, not absent. -/
theorem claim_C10_theorem (loc : Int → Option Int) (m : Message) (offset : Int) :
    (m.date = 0 → m.date_local loc offset = loc offset) ∧
    (m.date_delivered = 0 → m.date_delivered_local loc offset = loc offset) ∧
    (m.date_read = 0 → m.date_read_local loc offset = loc offset) ∧
    (m.date = 0 → m.date_local (fun u => some u) offset = some offset) := by
  refine ⟨fun h => ?_, fun h => ?_, fun h => ?_, fun h => ?_⟩ <;>
    simp [Message.date_local, Message.date_delivered_local, Message.date_read_local,
      get_local_time, h, Int.zero_tdiv]

/-- Claim C10, witness: the blank message (all raw stamps 0) at the real
epoch offset, under the identity local-time model. -/
theorem claim_C10_witness :
    Message.date_local (fun u => some u) blank 978307200 = some 978307200 := by
  exact (claim_C10_theorem (fun u => some u) blank 978307200).1 rfl

/-!  Claim C4: decoding of the association identifier. -/

/-- Claim C4, counterexample.  The claim prescribes parsing the part
between `p:` and the first slash (defaulting to 0 when unparseable) and
returning the target verbatim.  The source instead removes every
occurrence of `p:` from the first slash piece, so `p:p:2/T` decodes to
index 2 where the claim prescribes 0 (the part `p:2` is unparseable);
and it returns only the piece between the first and second slash, so
`p:1/a/b` decodes to target `a`, not the verbatim `a/b`. -/
theorem claim_C4_counterexample :
    Message.clean_associated_guid
        { blank with associated_message_guid := some ("p:p:2/T".toList) }
      = PanicOr.ok (some (2, "T".toList)) ∧
    Message.clean_associated_guid
        { blank with associated_message_guid := some ("p:p:2/T".toList) }
      ≠ PanicOr.ok (some (0, "T".toList)) ∧
    Message.clean_associated_guid
        { blank with associated_message_guid := some ("p:1/a/b".toList) }
      = PanicOr.ok (some (1, 'a' :: [])) ∧
    Message.clean_associated_guid
        { blank with associated_message_guid := some ("p:1/a/b".toList) }
      ≠ PanicOr.ok (some (1, "a/b".toList)) := by
  refine ⟨by decide, by decide, by decide, by decide⟩

/-- Claim C4, amended.  `clean_associated_guid` obeys the three mutually
exclusive formats: a `p:`-prefixed identifier written `p:<a>/<b>` (with
`a` slash-free) yields as index the whole first slash piece with every
occurrence of `p:` removed, parsed and defaulting to 0 when unparseable,
and as target the piece of `b` before its first slash (not the verbatim
remainder); a `bp:<target>` identifier yields index 0 with the target; an
unprefixed identifier yields index 0 with the whole string; an absent
identifier yields no association. -/
theorem claim_C4_amended (m : Message) (a b tgt g : Str) :
    (m.associated_message_guid = some ('p' :: ':' :: (a ++ '/' :: b)) → '/' ∉ a →
      m.clean_associated_guid = PanicOr.ok (some
        ((parseUsize (removePColonAll ('p' :: ':' :: a))).getD 0,
          b.takeWhile (fun c => c != '/')))) ∧
    (m.associated_message_guid = some ('b' :: 'p' :: ':' :: tgt) →
      m.clean_associated_guid = PanicOr.ok (some (0, tgt))) ∧
    (m.associated_message_guid = some g →
      startsWithStr g ('p' :: ':' :: []) = false →
      startsWithStr g ('b' :: 'p' :: ':' :: []) = false →
      m.clean_associated_guid = PanicOr.ok (some (0, g))) ∧
    (m.associated_message_guid = none → m.clean_associated_guid = PanicOr.ok none) := by
  refine ⟨fun hg ha => ?_, fun hg => ?_, fun hg hp hbp => ?_, fun hg => ?_⟩
  · have hall : ∀ c ∈ ('p' :: ':' :: a), c ≠ '/' := by
      intro c hcm
      rcases List.mem_cons.mp hcm with rfl | hcm
      · decide
      rcases List.mem_cons.mp hcm with rfl | hcm
      · decide
      · exact fun he => ha (he ▸ hcm)
    have h2 := splitOnChar_append '/' ('p' :: ':' :: a) b hall
    simp only [List.cons_append] at h2
    cases hb : splitOnChar '/' b with
    | nil => exact absurd hb (splitOnChar_ne_nil '/' b)
    | cons q qs =>
      have hq : q = b.takeWhile (fun c => c != '/') := by
        have hh := splitOnChar_head '/' b
        rw [hb] at hh
        simpa using hh
      rw [hb] at h2
      simp only [Message.clean_associated_guid, hg]
      rw [if_pos (by simp [startsWithStr]), h2]
      simp [hq]
  · simp only [Message.clean_associated_guid, hg]
    rw [if_neg (by simp [startsWithStr]), if_pos (by simp [startsWithStr])]
    simp
  · simp only [Message.clean_associated_guid, hg, hp, hbp]
    simp
  · simp [Message.clean_associated_guid, hg]

/-- Claim C4, witness at the three example identifiers of the
specification, which the amended statement still satisfies. -/
theorem claim_C4_witness :
    Message.clean_associated_guid
        { blank with associated_message_guid := some ("p:2/ABCD".toList) }
      = PanicOr.ok (some (2, "ABCD".toList)) ∧
    Message.clean_associated_guid
        { blank with associated_message_guid := some ("bp:XYZ".toList) }
      = PanicOr.ok (some (0, "XYZ".toList)) ∧
    Message.clean_associated_guid
        { blank with associated_message_guid := some ("PLAINGUID".toList) }
      = PanicOr.ok (some (0, "PLAINGUID".toList)) := by
  refine ⟨?_, ?_, ?_⟩
  · have h := (claim_C4_amended
      { blank with associated_message_guid := some ("p:2/ABCD".toList) }
      ('2' :: []) ("ABCD".toList) [] []).1 (by decide) (by decide)
    rw [h]
    decide
  · exact (claim_C4_amended
      { blank with associated_message_guid := some ("bp:XYZ".toList) }
      [] [] ("XYZ".toList) []).2.1 (by decide)
  · exact (claim_C4_amended
      { blank with associated_message_guid := some ("PLAINGUID".toList) }
      [] [] [] ("PLAINGUID".toList)).2.2.1 (by decide) (by decide) (by decide)

/-!  Claim C5: the numeric association-type taxonomy. -/

/-- Claim C5.  `variant` maps code 1000 to a sticker carrying the index
decoded from the association identifier; codes 2000 through 2005 to
added reactions with the kind table Loved, Liked, Disliked, Laughed,
Emphasized, Questioned; codes 3000 through 3005 to the same kinds
removed; and any code outside 0, 2, 3, 1000, 2000–2005, 3000–3005 to
`Unknown` of that code. -/
theorem claim_C5_theorem (m : Message) :
    (m.associated_message_type = 1000 →
      m.variant = m.reaction_index.map Variant.Sticker) ∧
    (m.associated_message_type = 2000 →
      m.variant = m.reaction_index.map (fun i => Variant.Reaction i true ReactionKind.Loved)) ∧
    (m.associated_message_type = 2001 →
      m.variant = m.reaction_index.map (fun i => Variant.Reaction i true ReactionKind.Liked)) ∧
    (m.associated_message_type = 2002 →
      m.variant = m.reaction_index.map (fun i => Variant.Reaction i true ReactionKind.Disliked)) ∧
    (m.associated_message_type = 2003 →
      m.variant = m.reaction_index.map (fun i => Variant.Reaction i true ReactionKind.Laughed)) ∧
    (m.associated_message_type = 2004 →
      m.variant = m.reaction_index.map (fun i => Variant.Reaction i true ReactionKind.Emphasized)) ∧
    (m.associated_message_type = 2005 →
      m.variant = m.reaction_index.map (fun i => Variant.Reaction i true ReactionKind.Questioned)) ∧
    (m.associated_message_type = 3000 →
      m.variant = m.reaction_index.map (fun i => Variant.Reaction i false ReactionKind.Loved)) ∧
    (m.associated_message_type = 3001 →
      m.variant = m.reaction_index.map (fun i => Variant.Reaction i false ReactionKind.Liked)) ∧
    (m.associated_message_type = 3002 →
      m.variant = m.reaction_index.map (fun i => Variant.Reaction i false ReactionKind.Disliked)) ∧
    (m.associated_message_type = 3003 →
      m.variant = m.reaction_index.map (fun i => Variant.Reaction i false ReactionKind.Laughed)) ∧
    (m.associated_message_type = 3004 →
      m.variant = m.reaction_index.map (fun i => Variant.Reaction i false ReactionKind.Emphasized)) ∧
    (m.associated_message_type = 3005 →
      m.variant = m.reaction_index.map (fun i => Variant.Reaction i false ReactionKind.Questioned)) ∧
    (m.associated_message_type ∉
        ([0, 2, 3, 1000, 2000, 2001, 2002, 2003, 2004, 2005,
          3000, 3001, 3002, 3003, 3004, 3005] : List Int) →
      m.variant = PanicOr.ok (Variant.Unknown m.associated_message_type)) := by
  refine ⟨fun h => ?_, fun h => ?_, fun h => ?_, fun h => ?_, fun h => ?_, fun h => ?_,
    fun h => ?_, fun h => ?_, fun h => ?_, fun h => ?_, fun h => ?_, fun h => ?_,
    fun h => ?_, fun h => ?_⟩ <;>
    [skip; skip; skip; skip; skip; skip; skip; skip; skip; skip; skip; skip; skip;
      (simp only [List.mem_cons, List.not_mem_nil, or_false, not_or] at h)] <;>
    simp [Message.variant, h]

/-- Claim C5, witness: an added dislike (code 2002) on the sub-part index
decoded from `p:1/X`, and an unknown code 9999. -/
theorem claim_C5_witness :
    Message.variant
        { blank with associated_message_type := 2002,
                     associated_message_guid := some ("p:1/X".toList) }
      = PanicOr.ok (Variant.Reaction 1 true ReactionKind.Disliked) ∧
    Message.variant { blank with associated_message_type := 9999 }
      = PanicOr.ok (Variant.Unknown 9999) := by
  constructor
  · have h := (claim_C5_theorem
      { blank with associated_message_type := 2002,
                   associated_message_guid := some ("p:1/X".toList) }).2.2.2.1 rfl
    rw [h]
    decide
  · have h := (claim_C5_theorem
      { blank with associated_message_type := 9999 }).2.2.2.2.2.2.2.2.2.2.2.2.2 (by decide)
    exact h

/-!  Claim C6: extension-bundle-identifier resolution. -/

/-- The full Apple Pay extension identifier used by the source's test
suite. -/
def applePayFullBundleId : Str :=
  "com.apple.messages.MSMessageExtensionBalloonPlugin:0000000000:com.apple.PassbookUIService.PeerPaymentMessagesExtension".toList

/-- Claim C6.  Resolution of the extension-bundle identifier: one
colon-delimited part resolves to that part; more than one part resolves
to the third part (index 2), absent with exactly two parts, in which
case the standard codes classify as `Normal`; the Apple Pay example
resolves to the Apple Pay balloon; an unrecognized effective identifier
resolves to `Application` of it; and the URL-preview identifier
classifies as `Music` instead of `URL` exactly when the raw text starts
with the music-service URL start. -/
theorem claim_C6_theorem (m : Message) (bid eff p : Str) :
    (m.balloon_bundle_id = some bid → splitOnChar ':' bid = [p] →
      m.parse_balloon_bundle_id = some p) ∧
    (m.balloon_bundle_id = some bid → 2 ≤ (splitOnChar ':' bid).length →
      m.parse_balloon_bundle_id = (splitOnChar ':' bid).get? 2) ∧
    (m.balloon_bundle_id = some bid → (splitOnChar ':' bid).length = 2 →
      (m.associated_message_type = 0 ∨ m.associated_message_type = 2 ∨
        m.associated_message_type = 3) →
      m.variant = PanicOr.ok Variant.Normal) ∧
    ((m.associated_message_type = 0 ∨ m.associated_message_type = 2 ∨
        m.associated_message_type = 3) →
      m.balloon_bundle_id = some applePayFullBundleId →
      m.variant = PanicOr.ok (Variant.App CustomBalloon.ApplePay)) ∧
    ((m.associated_message_type = 0 ∨ m.associated_message_type = 2 ∨
        m.associated_message_type = 3) →
      m.parse_balloon_bundle_id = some eff →
      eff ∉ [urlProviderId, handwritingId, applePayId, fitnessId, slideshowId] →
      m.variant = PanicOr.ok (Variant.App (CustomBalloon.Application eff))) ∧
    ((m.associated_message_type = 0 ∨ m.associated_message_type = 2 ∨
        m.associated_message_type = 3) →
      m.parse_balloon_bundle_id = some urlProviderId →
      (m.variant = PanicOr.ok (Variant.App CustomBalloon.Music) ↔
        ∃ txt, m.text = some txt ∧ startsWithStr txt musicUrlStart = true)) := by
  refine ⟨fun hb hsp => ?_, fun hb hlen => ?_, fun hb hlen hcode => ?_,
    fun hcode hb => ?_, fun hcode hpid hunk => ?_, fun hcode hpid => ?_⟩
  · simp [Message.parse_balloon_bundle_id, hb, hsp]
  · rcases hsp : splitOnChar ':' bid with _ | ⟨x, _ | ⟨y, rest⟩⟩
    · exact absurd hsp (splitOnChar_ne_nil ':' bid)
    · rw [hsp] at hlen
      simp at hlen
    · simp [Message.parse_balloon_bundle_id, hb, hsp]
  · have hpn : m.parse_balloon_bundle_id = none := by
      rcases hsp : splitOnChar ':' bid with _ | ⟨x, _ | ⟨y, _ | ⟨z, rest⟩⟩⟩
      · exact absurd hsp (splitOnChar_ne_nil ':' bid)
      · rw [hsp] at hlen
        simp at hlen
      · simp [Message.parse_balloon_bundle_id, hb, hsp]
      · rw [hsp] at hlen
        simp at hlen
    rcases hcode with h | h | h <;>
      simp [Message.variant, h, hpn]
  · have hpid : m.parse_balloon_bundle_id = some applePayId := by
      simp only [Message.parse_balloon_bundle_id, hb]
      decide
    rcases hcode with h | h | h <;>
      · simp only [Message.variant, h, hpid]
        rw [if_pos (by decide)]
        rw [if_neg (by decide), if_neg (by decide)]
        simp
  · simp only [List.mem_cons, List.not_mem_nil, or_false, not_or] at hunk
    obtain ⟨h1, h2, h3, h4, h5⟩ := hunk
    rcases hcode with h | h | h <;>
      · simp only [Message.variant, h, hpid]
        rw [if_pos (by decide)]
        rw [if_neg h1, if_neg h2, if_neg h3, if_neg h4, if_neg h5]
  · rcases hcode with h | h | h <;>
      · simp only [Message.variant, h, hpid]
        rw [if_pos (by decide)]
        simp only [if_true]
        cases htext : m.text with
        | none => simp
        | some txt =>
          by_cases hst : startsWithStr txt musicUrlStart = true
          · simp [hst]
          · simp [hst]

/-- Claim C6, witness: the Apple Pay example identifier under code 0,
and the two-part identifier fallback to `Normal`. -/
theorem claim_C6_witness :
    Message.variant { blank with balloon_bundle_id := some applePayFullBundleId }
      = PanicOr.ok (Variant.App CustomBalloon.ApplePay) ∧
    Message.variant { blank with balloon_bundle_id := some ("a:b".toList) }
      = PanicOr.ok Variant.Normal := by
  constructor
  · exact (claim_C6_theorem { blank with balloon_bundle_id := some applePayFullBundleId }
      [] [] []).2.2.2.1 (Or.inl rfl) rfl
  · exact (claim_C6_theorem { blank with balloon_bundle_id := some ("a:b".toList) }
      ("a:b".toList) [] []).2.2.1 rfl (by decide) (Or.inl rfl)

/-!  Claim C7: the duration formatter. -/

/-- The imperative accumulation of the four duration components equals
the specification's filter-and-join description. -/
theorem pushUnit_chain_eq (d h mi se : Nat) :
    pushUnit (pushUnit (pushUnit (pushUnit [] d "day".toList "days".toList)
        h "hour".toList "hours".toList)
        mi "minute".toList "minutes".toList)
        se "second".toList "seconds".toList
      = joinSep SEPARATOR
          ((([(d, "day".toList, "days".toList), (h, "hour".toList, "hours".toList),
              (mi, "minute".toList, "minutes".toList),
              (se, "second".toList, "seconds".toList)]).filter (fun q => q.1 ≠ 0)).map
            (fun q => unitComponent q.1 q.2.1 q.2.2)) := by
  by_cases hd : d = 0 <;> by_cases hh : h = 0 <;> by_cases hm : mi = 0 <;>
    by_cases hs : se = 0 <;>
    simp [pushUnit, unitComponent, joinSep, hd, hh, hm, hs, natDigits_ne_nil,
      List.append_assoc]

/-- The accumulation body of `readable_diff` equals the specification's
duration rendering. -/
theorem formatDiffNat_eq_durationSpec (s : Nat) : formatDiffNat s = durationSpec s := by
  unfold formatDiffNat durationSpec durationComponents
  exact pushUnit_chain_eq _ _ _ _

/-- Claim C7.  `readable_diff` is absent exactly when the difference in
whole seconds is negative; otherwise it renders the non-zero
day/hour/minute/second components (each the remainder after the larger
unit) as counts with singular or plural unit words, joined by the
comma-space separator in descending unit order, the all-zero duration
yielding the present empty string. -/
theorem claim_C7_theorem (start fin : Int) :
    (readable_diff start fin = none ↔ fin - start < 0) ∧
    (0 ≤ fin - start →
      readable_diff start fin = some (durationSpec (fin - start).toNat)) := by
  constructor
  · rw [readable_diff]
    by_cases hlt : fin - start < 0
    · simp [hlt]
    · simp [hlt]
  · intro h
    rw [readable_diff, if_neg (not_lt.mpr h), formatDiffNat_eq_durationSpec]

/-- Claim C7, witness: the all-singular gap, the mixed-plural gap of the
source's test suite, the all-zero duration, and a negative gap. -/
theorem claim_C7_witness :
    readable_diff 0 90061 = some ("1 day, 1 hour, 1 minute, 1 second".toList) ∧
    readable_diff 0 192154 = some ("2 days, 5 hours, 22 minutes, 34 seconds".toList) ∧
    readable_diff 7 7 = some [] ∧
    readable_diff 30 11 = none := by
  refine ⟨?_, ?_, ?_, ?_⟩
  · rw [(claim_C7_theorem 0 90061).2 (by decide)]
    decide
  · rw [(claim_C7_theorem 0 192154).2 (by decide)]
    decide
  · rw [(claim_C7_theorem 7 7).2 (by decide)]
    decide
  · exact (claim_C7_theorem 30 11).1.mpr (by decide)

end IMessage
